import Mathlib

/-!
# Verification of the football-501 harvesting/aggregation pipeline

Shallow embedding of the score classifiers, the merge-store upserts, the
aggregation engine and the answer-population routines of the football-501
scraper, together with theorems checking the specified properties.

Conventions:
* Python `int` is modelled as `Int`; Python strings as `String`.
* Python `None`-able values are `Option`s; Python truthiness of an optional
  int / string is modelled explicitly (`pyTruthyInt`, `pyTruthyStr`).
* Database tables are association lists / lists of records; SQLAlchemy
  `first()`-then-mutate is modelled as replacement of the first matching
  list element.
-/

namespace Football501

/-! ## Darts score classifiers

Three implementations exist in the source:
* `utils/darts.py` (`is_valid_darts_score`),
* `jobs/populate_questions_v2.py` (`QuestionPopulator._is_valid_darts_score`,
  `QuestionPopulator._is_bust`),
* `database/crud_v3.py` (`DatabaseManager.is_valid_darts_score`,
  `DatabaseManager.is_bust`).
-/

/-- Membership in the impossible-3-dart-score set
`{163, 166, 169, 172, 173, 175, 176, 178, 179}` (the literal set appears as
`impossible_scores` in `utils/darts.py`, `invalid_scores` in
`populate_questions_v2.py` and `INVALID_DARTS_SCORES` in `crud_v3.py`). -/
def INVALID_DARTS_SCORES_mem (s : Int) : Bool :=
  s == 163 || s == 166 || s == 169 || s == 172 || s == 173 ||
  s == 175 || s == 176 || s == 178 || s == 179

namespace Darts

/-- `utils/darts.py::is_valid_darts_score`. -/
def is_valid_darts_score (score : Int) : Bool :=
  if score < 0 || score > 180 then false
  else if INVALID_DARTS_SCORES_mem score then false
  else true

end Darts

namespace Populator

/-- `jobs/populate_questions_v2.py::QuestionPopulator._is_valid_darts_score`:
only checks the exclusion set, with no range check. -/
def is_valid_darts_score (score : Int) : Bool :=
  !INVALID_DARTS_SCORES_mem score

/-- `jobs/populate_questions_v2.py::QuestionPopulator._is_bust`. -/
def is_bust (score : Int) : Bool :=
  score > 180 || score < -10

end Populator

namespace DBM

/-- `database/crud_v3.py::DatabaseManager.is_valid_darts_score`. -/
def is_valid_darts_score (score : Int) : Bool :=
  if score < 1 || score > 180 then false
  else !INVALID_DARTS_SCORES_mem score

/-- `database/crud_v3.py::DatabaseManager.is_bust`. -/
def is_bust (score : Int) : Bool :=
  score > 180

end DBM

/-! ## Merge store, V3 (`database/crud_v3.py`, JSONB career stats)

A player's season statistics live in a JSONB list `career_stats`;
`add_player_season_stats` replaces the first element whose
`(season, team, competition)` triple matches the arguments, else appends.
-/

/-- One element of a player's JSONB `career_stats` list, as built by the
`season_data` dict in `crud_v3.py::add_player_season_stats`. -/
structure SeasonData where
  season : String
  team : String
  team_id : String
  competition : String
  competition_id : String
  appearances : Int
  goals : Int
  assists : Int
  clean_sheets : Int
  minutes_played : Int
deriving DecidableEq, Repr

/-- The `(season, team, competition)` key on which
`add_player_season_stats` matches existing entries. -/
def seasonKey (sd : SeasonData) : String × String × String :=
  (sd.season, sd.team, sd.competition)

/-- The update loop of `crud_v3.py::add_player_season_stats`: walk
`career_stats`; the first entry matching `(season, team, competition)` is
replaced by the new `season_data` (then `break`); if none matches, the new
entry is appended. -/
def upsertCareerStats : List SeasonData → SeasonData → List SeasonData
  | [], sd => [sd]
  | s :: rest, sd =>
    if s.season == sd.season && s.team == sd.team && s.competition == sd.competition then
      sd :: rest
    else
      s :: upsertCareerStats rest sd

/-- A row of the `players` table used by V3 (`database/models_v3.py`):
UUID primary key, FBRef id, names and the JSONB stats list. -/
structure Player3 where
  id : String
  fbref_id : String
  name : String
  normalized_name : String
  career_stats : List SeasonData
deriving DecidableEq, Repr

/-- `crud_v3.py::DatabaseManager.add_player_season_stats` acting on the
`players` table: look up the first player by `fbref_id`; if absent, return
`false` and leave the table unchanged; otherwise upsert the season entry
(built from the `season`/team/competition/counter arguments, here bundled
as `sd : SeasonData`) into that player's `career_stats` and return `true`. -/
def add_player_season_stats : List Player3 → String → SeasonData → List Player3 × Bool
  | [], _, _ => ([], false)
  | p :: ps, fbref_id, sd =>
    if p.fbref_id == fbref_id then
      ({ p with career_stats := upsertCareerStats p.career_stats sd } :: ps, true)
    else
      let r := add_player_season_stats ps fbref_id sd
      (p :: r.1, r.2)

/-! ## Merge store, V2 (`database/crud_v2.py`, relational career stats)

`upsert_player_career_stats` works on the `player_career_stats` table:
the first row matching `(player_id, team_id, competition_id, season)` has
its counters overwritten; if none matches, a new row is appended.
-/

/-- A row of the `player_career_stats` table (`database/models_v2.py`).
The record doubles as the argument bundle of `upsert_player_career_stats`,
whose parameters are exactly these fields. -/
structure PlayerCareerStats where
  player_id : Int
  team_id : Int
  competition_id : Int
  season : String
  appearances : Int
  goals : Int
  assists : Int
  clean_sheets : Int
  minutes_played : Int
deriving DecidableEq, Repr

/-- The `(player_id, team_id, competition_id, season)` key used by the
`filter_by` lookup in `crud_v2.py::upsert_player_career_stats`. -/
def statsKey (r : PlayerCareerStats) : Int × Int × Int × String :=
  (r.player_id, r.team_id, r.competition_id, r.season)

/-- `crud_v2.py::DatabaseManager.upsert_player_career_stats`: find the first
row with the given `(player_id, team_id, competition_id, season)`; if found,
overwrite its five counters with the arguments; else append a new row. -/
def upsert_player_career_stats : List PlayerCareerStats → PlayerCareerStats →
    List PlayerCareerStats
  | [], arg => [arg]
  | r :: rest, arg =>
    if r.player_id == arg.player_id && r.team_id == arg.team_id &&
        r.competition_id == arg.competition_id && r.season == arg.season then
      { r with
        appearances := arg.appearances
        goals := arg.goals
        assists := arg.assists
        clean_sheets := arg.clean_sheets
        minutes_played := arg.minutes_played } :: rest
    else
      r :: upsert_player_career_stats rest arg

/-! ## Aggregation engine (`jobs/populate_questions_v2.py`)

`QuestionPopulator._aggregate_stats` groups the raw rows returned by
`crud_v2.py::query_player_stats` by player according to the question's
aggregation strategy; `_calculate_score` turns the grouped counters into a
score; `_transform_to_answers` builds the answer rows.
-/

/-- A row returned by `crud_v2.py::DatabaseManager.query_player_stats`
(the dicts consumed by `_aggregate_stats`). -/
structure RawStat where
  player_id : Int
  player_name : String
  normalized_name : String
  nationality : String
  team_name : String
  competition_name : String
  season : String
  appearances : Int
  goals : Int
  assists : Int
  clean_sheets : Int
deriving DecidableEq, Repr

/-- The per-player totals dict built by the `'sum'` branch of
`_aggregate_stats` (the `defaultdict` entry shape). -/
structure AggStats where
  player_id : Int
  player_name : String
  normalized_name : String
  appearances : Int
  goals : Int
  assists : Int
  clean_sheets : Int
deriving DecidableEq, Repr

/-- Projection of a raw season row to the fields `_calculate_score` and
`_transform_to_answers` read; models Python dict duck-typing, under which
the `'single_season'` / `'latest_season'` branches return the raw row
itself. -/
def RawStat.toAggStats (r : RawStat) : AggStats :=
  ⟨r.player_id, r.player_name, r.normalized_name,
    r.appearances, r.goals, r.assists, r.clean_sheets⟩

/-- A `questions` row of `database/models_v2.py` (the fields the populator
reads). -/
structure QuestionV2 where
  id : Int
  stat_type : String
  aggregation : String
  team_id : Option Int
  competition_id : Option Int
  nationality_filter : Option String
  season_filter : Option String
  min_score : Option Int
deriving DecidableEq, Repr

/-- Python-dict lookup on an insertion-ordered association list. -/
def dictLookup {β : Type} : List (Int × β) → Int → Option β
  | [], _ => none
  | (k', v) :: rest, k => if k' == k then some v else dictLookup rest k

/-- Python-dict assignment: overwrite in place if the key exists (keeping
its position), else append. -/
def dictInsert {β : Type} : List (Int × β) → Int → β → List (Int × β)
  | [], k, v => [(k, v)]
  | (k', v') :: rest, k, v =>
    if k' == k then (k, v) :: rest else (k', v') :: dictInsert rest k v

/-- The fresh entry a `defaultdict` access creates in the `'sum'` branch of
`_aggregate_stats`. -/
def defaultTotals : AggStats := ⟨0, "", "", 0, 0, 0, 0⟩

/-- One iteration of the `'sum'` loop of `_aggregate_stats`: fetch (or
default-create) the player's totals, overwrite the id/name fields and add
the four counters. -/
def sumStep (acc : List (Int × AggStats)) (stat : RawStat) : List (Int × AggStats) :=
  let cur := (dictLookup acc stat.player_id).getD defaultTotals
  dictInsert acc stat.player_id
    { player_id := stat.player_id
      player_name := stat.player_name
      normalized_name := stat.normalized_name
      appearances := cur.appearances + stat.appearances
      goals := cur.goals + stat.goals
      assists := cur.assists + stat.assists
      clean_sheets := cur.clean_sheets + stat.clean_sheets }

/-- The `'sum'` branch of `_aggregate_stats`. -/
def sumAggregate (raw_stats : List RawStat) : List (Int × AggStats) :=
  raw_stats.foldl sumStep []

/-- One iteration of the `'single_season'` loop of `_aggregate_stats`:
keep the row with the lexicographically greatest `season`, first seen wins
ties (`season > player_latest[pid]['season']` is strict). -/
def singleSeasonStep (acc : List (Int × RawStat)) (stat : RawStat) : List (Int × RawStat) :=
  match dictLookup acc stat.player_id with
  | none => dictInsert acc stat.player_id stat
  | some prev =>
    if prev.season < stat.season then dictInsert acc stat.player_id stat else acc

/-- The `'single_season'` branch of `_aggregate_stats`. -/
def singleSeasonAggregate (raw_stats : List RawStat) : List (Int × RawStat) :=
  raw_stats.foldl singleSeasonStep []

/-- Python `max(..., default=None)` over season labels (first maximal value
wins, as in CPython). -/
def maxSeason (l : List String) : Option String :=
  l.foldl
    (fun acc s =>
      match acc with
      | none => some s
      | some m => some (if m < s then s else m))
    none

/-- The `'latest_season'` branch of `_aggregate_stats`: find the greatest
season label (`if not latest_season: return {}` also fires on the empty
string, which is falsy in Python) and keep exactly the rows carrying it. -/
def latestSeasonAggregate (raw_stats : List RawStat) : List (Int × RawStat) :=
  match maxSeason (raw_stats.map (·.season)) with
  | none => []
  | some latest =>
    if latest == "" then []
    else
      raw_stats.foldl
        (fun acc stat =>
          if stat.season == latest then dictInsert acc stat.player_id stat else acc)
        []

/-- `QuestionPopulator._aggregate_stats`, with explicit recursion fuel: the
unknown-strategy branch calls `self._aggregate_stats(raw_stats, question)`
with the *same* question, so it never reaches a base case; exhausted fuel
(`none`) models the resulting `RecursionError`.  The known branches return
their per-player dict (raw rows projected through `RawStat.toAggStats`,
cf. duck typing). -/
def aggregate_stats : Nat → List RawStat → QuestionV2 → Option (List (Int × AggStats))
  | fuel, raw_stats, question =>
    if question.aggregation == "sum" then
      some (sumAggregate raw_stats)
    else if question.aggregation == "single_season" then
      some ((singleSeasonAggregate raw_stats).map fun p => (p.1, p.2.toAggStats))
    else if question.aggregation == "latest_season" then
      some ((latestSeasonAggregate raw_stats).map fun p => (p.1, p.2.toAggStats))
    else
      match fuel with
      | 0 => none
      | n + 1 => aggregate_stats n raw_stats question

/-- `QuestionPopulator._calculate_score`. -/
def calculate_score (stats : AggStats) (stat_type : String) : Int :=
  if stat_type == "appearances" then stats.appearances
  else if stat_type == "goals" then stats.goals
  else if stat_type == "assists" then stats.assists
  else if stat_type == "combined_apps_goals" then stats.appearances + stats.goals
  else if stat_type == "combined_apps_assists" then stats.appearances + stats.assists
  else if stat_type == "goalkeeper" then stats.appearances + stats.clean_sheets
  else stats.appearances

/-- An answer dict built by `QuestionPopulator._transform_to_answers` (a row
of V2's `question_valid_answers`). -/
structure AnswerV2 where
  question_id : Int
  player_id : Int
  player_name : String
  normalized_name : String
  score : Int
  is_valid_darts_score : Bool
  is_bust : Bool
deriving DecidableEq, Repr

/-- Python truthiness of an optional integer (`None` and `0` are falsy). -/
def pyTruthyInt : Option Int → Bool
  | none => false
  | some m => m != 0

/-- `QuestionPopulator._transform_to_answers` (arguments flipped for
structural recursion): for each aggregated entry compute the score, skip it
iff `question.min_score` is truthy and the score is below it, otherwise
emit an answer row classified by `_is_valid_darts_score` / `_is_bust`.
There is no positivity check. -/
def transform_to_answers (question : QuestionV2) :
    List (Int × AggStats) → List AnswerV2
  | [] => []
  | (player_id, stats) :: rest =>
    let score := calculate_score stats question.stat_type
    if pyTruthyInt question.min_score && score < question.min_score.getD 0 then
      transform_to_answers question rest
    else
      ⟨question.id, player_id, stats.player_name, stats.normalized_name, score,
        Populator.is_valid_darts_score score, Populator.is_bust score⟩ ::
        transform_to_answers question rest

/-! ## Answer population, V3 (`database/crud_v3.py::populate_question_answers`)

One SQL transaction per question: delete the question's existing answers,
then insert one answer row per (player, matching JSONB season entry) with
positive score.  The team/competition filters are resolved to names first;
a filter whose referenced team/competition row no longer exists is silently
*not added* to the WHERE clause.
-/

/-- A `teams` row (V3, `database/models_v3.py`): UUID id and name. -/
structure Team3 where
  id : String
  name : String
deriving DecidableEq, Repr

/-- A `competitions` row (V3). -/
structure Competition3 where
  id : String
  name : String
deriving DecidableEq, Repr

/-- A `questions` row (V3, the fields `populate_question_answers` reads). -/
structure Question3 where
  id : String
  stat_type : String
  team_id : Option String
  competition_id : Option String
  season_filter : Option String
deriving DecidableEq, Repr

/-- A `question_valid_answers` row (V3, the semantically relevant
columns). -/
structure AnswerRow where
  question_id : String
  player_id : String
  player_name : String
  normalized_name : String
  score : Int
  is_valid_darts_score : Bool
  is_bust : Bool
deriving DecidableEq, Repr

/-- The V3 database state touched by `populate_question_answers`. -/
structure Db3 where
  teams : List Team3
  competitions : List Competition3
  players : List Player3
  questions : List Question3
  answers : List AnswerRow
deriving DecidableEq, Repr

/-- Python truthiness of an optional string (`None` and `""` are falsy). -/
def pyTruthyStr : Option String → Bool
  | none => false
  | some s => s != ""

/-- `session.query(Question).filter_by(id=question_id).first()`. -/
def findQuestion (db : Db3) (question_id : String) : Option Question3 :=
  db.questions.find? fun q => q.id == question_id

/-- Resolution of the question's team filter to a team *name*: the WHERE
fragment is added only when `question.team_id` is truthy and the team row
still exists (`if team:`). -/
def teamFilterName (db : Db3) (q : Question3) : Option String :=
  if pyTruthyStr q.team_id then
    match db.teams.find? (fun t => t.id == q.team_id.getD "") with
    | some t => some t.name
    | none => none
  else none

/-- Resolution of the question's competition filter to a name (as
`teamFilterName`). -/
def compFilterName (db : Db3) (q : Question3) : Option String :=
  if pyTruthyStr q.competition_id then
    match db.competitions.find? (fun c => c.id == q.competition_id.getD "") with
    | some c => some c.name
    | none => none
  else none

/-- The `score_expr` SQL fragment chosen from `question.stat_type`
(unknown types fall back to appearances). -/
def scoreExprV3 (row : SeasonData) (stat_type : String) : Int :=
  if stat_type == "appearances" then row.appearances
  else if stat_type == "goals" then row.goals
  else if stat_type == "combined_apps_goals" then row.appearances + row.goals
  else if stat_type == "goalkeeper" then row.appearances + row.clean_sheets
  else row.appearances

/-- The assembled WHERE clause over one JSONB season element (the filters
actually added to `query_parts`; an empty list means `1=1`). -/
def rowMatchesFilters (db : Db3) (q : Question3) (row : SeasonData) : Bool :=
  (match teamFilterName db q with
   | some tname => row.team == tname
   | none => true) &&
  (match compFilterName db q with
   | some cname => row.competition == cname
   | none => true) &&
  (if pyTruthyStr q.season_filter then row.season == q.season_filter.getD "" else true)

/-- The rows the SELECT of `populate_question_answers` produces and the
INSERT *attempts* to store: one per (player, career-stats element) passing
the filters with positive score, classified by the inline CASE
expressions.  The `uq_question_player` unique constraint on
`question_valid_answers` (`models_v3.py`) is enforced at insertion time,
in `populate_question_answers` below, not here. -/
def computeAnswerRows (db : Db3) (question_id : String) (q : Question3) : List AnswerRow :=
  (db.players.map fun p =>
    (p.career_stats.filter fun row =>
        rowMatchesFilters db q row && scoreExprV3 row q.stat_type > 0).map
      fun row =>
        let sc := scoreExprV3 row q.stat_type
        ⟨question_id, p.id, p.name, p.normalized_name, sc,
          decide (1 ≤ sc ∧ sc ≤ 180) && !INVALID_DARTS_SCORES_mem sc,
          decide (sc > 180)⟩).flatten

/-- Outcome of `populate_question_answers`: the inserted row count, or the
`IntegrityError` the raw INSERT raises when its rows violate the
`uq_question_player` unique constraint. -/
inductive PopulateResult where
  | count : Int → PopulateResult
  | integrityError : PopulateResult
deriving DecidableEq, Repr

/-- Whether an answer batch violates `uq_question_player`: two rows for
the same player (all rows of one INSERT share the question id, so the
constraint collapses to duplicate `player_id`s — a player with several
matching positive-score season elements). -/
def dupPlayerIds : List AnswerRow → Bool
  | [] => false
  | r :: rest => rest.any (fun r2 => r2.player_id == r.player_id) || dupPlayerIds rest

/-- `crud_v3.py::DatabaseManager.populate_question_answers`: missing
question returns count 0 before any deletion; otherwise, in one
transaction, the question's old answers are deleted and the freshly
computed rows inserted, returning the inserted row count — unless the
batch violates the `uq_question_player` unique constraint
(`models_v3.py`), in which case the INSERT raises `IntegrityError`, the
session context manager rolls the transaction (delete included) back, and
the stored state is unchanged. -/
def populate_question_answers (db : Db3) (question_id : String) : Db3 × PopulateResult :=
  match findQuestion db question_id with
  | none => (db, .count 0)
  | some q =>
    if dupPlayerIds (computeAnswerRows db question_id q) then
      (db, .integrityError)
    else
      ({ db with answers :=
          (db.answers.filter fun a => a.question_id != question_id) ++
            computeAnswerRows db question_id q },
       .count (computeAnswerRows db question_id q).length)

/-! ## Answer population, V4 (`populate_answers_v2.py::run`)

The V2 answer script reads all active `Question`s and all `Player`s from
the V4 schema (`database/models_v4.py`), *deletes and commits away every
stored answer first*, then recomputes all answers in memory (filter season
rows by the question's JSONB `config`, sum the metric, deduplicate on
normalized name with first-processed-wins, apply the `min_score`
threshold) and commits the new rows at the end.
-/

/-- A JSONB scalar as stored in `career_stats` entries / question
configs. -/
inductive JVal where
  | jnull : JVal
  | jint : Int → JVal
  | jstr : String → JVal
deriving DecidableEq, Repr

/-- One `career_stats` element in the V4 schema: a JSON object, i.e. an
ordered association list of string keys to scalars. -/
abbrev StatRowV4 := List (String × JVal)

/-- Python `str()` of a (possibly missing, i.e. `None`) JSON scalar. -/
def pyStr : JVal → String
  | .jnull => "None"
  | .jint n => toString n
  | .jstr s => s

/-- Python `dict.get(k)` on a JSON object. -/
def pyGet (row : StatRowV4) (k : String) : Option JVal :=
  (row.find? fun e => e.1 == k).map (·.2)

/-- `populate_answers_v2.py::clean_value`: strings like `"1,200"` become
`1200`; non-digit strings (and `None`) become `0`; ints pass through. -/
def clean_value : JVal → Int
  | .jstr s =>
    match (s.replace "," "").toNat? with
    | some n => (n : Int)
    | none => 0
  | .jint n => n
  | .jnull => 0

/-- The filter loop of `run`: a season row matches a question's `config`
iff for every `(filter_key, filter_val)` the row's value (missing ⇒
`None`) stringifies equal to the filter value's stringification.  An empty
config matches everything. -/
def matchesConfig (row : StatRowV4) (config : List (String × JVal)) : Bool :=
  config.all fun kv => pyStr ((pyGet row kv.1).getD JVal.jnull) == pyStr kv.2

/-- A V4 `players` row (the fields `run` reads). -/
structure PlayerV4 where
  id : String
  name : String
  normalized_name : String
  career_stats : List StatRowV4
deriving DecidableEq, Repr

/-- A V4 `questions` row (the fields `run` reads). -/
structure QuestionV4 where
  id : String
  metric_key : String
  config : List (String × JVal)
  min_score : Option Int
  is_active : Bool
deriving DecidableEq, Repr

/-- A V4 `answers` row (the semantically relevant columns built by
`run`). -/
structure AnswerV4 where
  question_id : String
  answer_key : String
  display_text : String
  score : Int
  is_valid_darts : Bool
  is_bust : Bool
deriving DecidableEq, Repr

/-- The metric total `run` computes for a player and question: the sum of
`clean_value(stat.get(metric_key, 0))` over the season rows matching the
config. -/
def totalScore (p : PlayerV4) (q : QuestionV4) : Int :=
  ((p.career_stats.filter fun row => matchesConfig row q.config).map
    fun row => clean_value ((pyGet row q.metric_key).getD (JVal.jint 0))).sum

/-- The `seen_keys` map of `run` (question id ↦ set of claimed normalized
names) together with the accumulated answer batch. -/
structure RunState where
  seen : List (String × List String)
  answers : List AnswerV4
deriving DecidableEq, Repr

/-- Lookup of a question's claimed-keys set (`seen_keys[q.id]`, empty when
absent — `run` pre-seeds every question with an empty set). -/
def seenLookup : List (String × List String) → String → List String
  | [], _ => []
  | (qid', ks) :: rest, qid => if qid' == qid then ks else seenLookup rest qid

/-- `seen_keys[q.id].add(key)`. -/
def seenAdd : List (String × List String) → String → String → List (String × List String)
  | [], qid, k => [(qid, [k])]
  | (qid', ks) :: rest, qid, k =>
    if qid' == qid then (qid', k :: ks) :: rest else (qid', ks) :: seenAdd rest qid k

/-- The answer row `run` appends for player `p` on question `q` (validity
from `utils/darts.py`, bust inline as `score > 180 or score <= 0`). -/
def answerOf (p : PlayerV4) (q : QuestionV4) : AnswerV4 :=
  ⟨q.id, p.normalized_name, p.name, totalScore p q,
    Darts.is_valid_darts_score (totalScore p q),
    decide (totalScore p q > 180) || decide (totalScore p q ≤ 0)⟩

/-- The body of `run`'s inner loop for one (player, question) pair:
skip when no season row matches; skip when the total is not positive;
skip (without claiming the key) when the key is already claimed; otherwise
claim the key and, unless a truthy `min_score` rejects the total, append
the answer row. -/
def runStep (p : PlayerV4) (st : RunState) (q : QuestionV4) : RunState :=
  if (p.career_stats.filter fun row => matchesConfig row q.config).isEmpty then st
  else if totalScore p q > 0 then
    if p.normalized_name ∈ seenLookup st.seen q.id then st
    else if pyTruthyInt q.min_score && totalScore p q < q.min_score.getD 0 then
      { st with seen := seenAdd st.seen q.id p.normalized_name }
    else
      { seen := seenAdd st.seen q.id p.normalized_name
        answers := st.answers ++ [answerOf p q] }
  else st

/-- The body of `run`'s outer loop: a player with empty `career_stats` is
skipped wholesale, otherwise every question is processed in order. -/
def runPlayer (questions : List QuestionV4) (st : RunState) (p : PlayerV4) : RunState :=
  if p.career_stats.isEmpty then st
  else questions.foldl (runStep p) st

/-- The complete answer batch `run` computes for the given players and
(already active-filtered) questions. -/
def runAnswers (players : List PlayerV4) (questions : List QuestionV4) : List AnswerV4 :=
  (players.foldl (runPlayer questions) ⟨[], []⟩).answers

/-- The V4 database state touched by `run`. -/
structure Db4 where
  players : List PlayerV4
  questions : List QuestionV4
  answers : List AnswerV4
deriving DecidableEq, Repr

/-- The state committed by `run` at line 56, *before* any new answer is
computed: every stored answer of every question has been deleted. -/
def runV2_afterClear (db : Db4) : Db4 :=
  { db with answers := [] }

/-- The durable states of `run`, one per `session.commit()`: when no
active question exists, `run` prints "No questions found" and returns
*before* the clear-all delete, committing nothing; otherwise first the
clear-all commit, then the final commit with the recomputed batch.  A
failure while computing answers leaves the cleared state behind. -/
def runV2_commit_states (db : Db4) : List Db4 :=
  if (db.questions.filter fun q => q.is_active).isEmpty then []
  else
    [runV2_afterClear db,
     { db with answers := runAnswers db.players (db.questions.filter fun q => q.is_active) }]

/-- Whether player `p` *claims* the dedup key for question `q` in `run`:
some season row matches the config and the total is positive (the claim
happens before the `min_score` check). -/
def claimsKey (p : PlayerV4) (q : QuestionV4) : Bool :=
  !(p.career_stats.filter fun row => matchesConfig row q.config).isEmpty &&
    totalScore p q > 0

/-- Whether a claiming player also passes the (truthy) `min_score`
threshold, i.e. actually contributes an answer row. -/
def passesMinScore (p : PlayerV4) (q : QuestionV4) : Bool :=
  !(pyTruthyInt q.min_score && totalScore p q < q.min_score.getD 0)

/-- The first player in processing order who claims key `k` for question
`q`. -/
def firstClaimer (q : QuestionV4) (k : String) (players : List PlayerV4) :
    Option PlayerV4 :=
  players.find? fun p => p.normalized_name == k && claimsKey p q

/-- The `(claimed?, answers for the key)` projection of a run state onto a
single `(question, normalized-name)` pair, used to reason about
deduplication. -/
def projArr (st : RunState) (q : QuestionV4) (k : String) : Bool × List AnswerV4 :=
  (decide (k ∈ seenLookup st.seen q.id),
   st.answers.filter fun a => a.question_id == q.id && a.answer_key == k)

/-- Abstract per-key transition of `run`: the first player claiming the key
flips the claimed bit and contributes an answer iff it passes the
threshold; everyone else leaves the projection unchanged. -/
def keyStep (q : QuestionV4) (k : String) (acc : Bool × List AnswerV4)
    (p : PlayerV4) : Bool × List AnswerV4 :=
  if p.normalized_name == k && claimsKey p q && !acc.1 then
    (true, acc.2 ++ if passesMinScore p q then [answerOf p q] else [])
  else acc

/-! ## Rate limiter (`scrapers/parallel_player_scraper.py::RateLimiter`)

`wait()` runs entirely under `self.lock`, so concurrent calls from any
number of workers serialize into a sequence of atomic steps; we model time
by rationals.  Each step observes the current clock `current` (necessarily
`≥` the previous step's completion, by lock ordering and clock
monotonicity, though the bound below needs no such hypothesis), sleeps
`wait_time - (current - last_request_time)` when that is positive, and
stores its completion time as the new `last_request_time`.  `time.sleep`
is modelled as exact; real sleeps only lengthen the spans bounded below.
-/

namespace RateLimiter

/-- One `wait()` call: the completion time (= new `last_request_time`)
as a function of the stored timestamp and the observed clock. -/
def step (wait_time last current : ℚ) : ℚ :=
  if current - last < wait_time then last + wait_time else current

/-- The completion times of a sequence of `wait()` calls observing clock
values `cs`, threading `last_request_time` (initially `0` in
`__init__`). -/
def waitRun (wait_time : ℚ) : ℚ → List ℚ → List ℚ
  | _, [] => []
  | last, c :: cs => step wait_time last c :: waitRun wait_time (step wait_time last c) cs

end RateLimiter

/-! ## Theorems -/

/-- C1, counterexample: the claimed biconditionals fail on two of the three
implementations.  `QuestionPopulator._is_valid_darts_score 200` is `true`
although `200 > 180` (the claim says every score outside `1..180` is
invalid), `QuestionPopulator._is_bust (-11)` is `true` although `-11 ≤ 180`,
and `utils/darts.py` accepts the score `0`. -/
theorem C1_classifier_counterexample :
    Populator.is_valid_darts_score 200 = true ∧
    ¬ (1 ≤ (200 : Int) ∧ (200 : Int) ≤ 180) ∧
    Populator.is_bust (-11) = true ∧ ¬ ((-11 : Int) > 180) ∧
    Darts.is_valid_darts_score 0 = true ∧ ¬ (1 ≤ (0 : Int)) := by
  decide

/-- C1, amended: the `DatabaseManager` classifiers in `crud_v3.py` realize
both claimed biconditionals (and the three concrete examples 34 / 179 / 200
behave as claimed for them); `utils/darts.py` additionally accepts `0`; the
`QuestionPopulator` classifiers check only set membership (`_is_valid`) and
also flag scores below `-10` (`_is_bust`). -/
theorem C1_classifiers_amended (s : Int) :
    (DBM.is_bust s = true ↔ s > 180) ∧
    (DBM.is_valid_darts_score s = true ↔
      (1 ≤ s ∧ s ≤ 180 ∧
        ¬ (s = 163 ∨ s = 166 ∨ s = 169 ∨ s = 172 ∨ s = 173 ∨
           s = 175 ∨ s = 176 ∨ s = 178 ∨ s = 179))) ∧
    (Darts.is_valid_darts_score s = true ↔
      (0 ≤ s ∧ s ≤ 180 ∧
        ¬ (s = 163 ∨ s = 166 ∨ s = 169 ∨ s = 172 ∨ s = 173 ∨
           s = 175 ∨ s = 176 ∨ s = 178 ∨ s = 179))) ∧
    (Populator.is_valid_darts_score s = true ↔
      ¬ (s = 163 ∨ s = 166 ∨ s = 169 ∨ s = 172 ∨ s = 173 ∨
         s = 175 ∨ s = 176 ∨ s = 178 ∨ s = 179)) ∧
    (Populator.is_bust s = true ↔ (s > 180 ∨ s < -10)) ∧
    (DBM.is_valid_darts_score 34 = true ∧ DBM.is_bust 34 = false) ∧
    (DBM.is_valid_darts_score 179 = false ∧ DBM.is_bust 179 = false) ∧
    (DBM.is_bust 200 = true ∧ DBM.is_valid_darts_score 200 = false) := by
  refine ⟨?_, ?_, ?_, ?_, ?_, by decide, by decide, by decide⟩ <;>
    simp only [DBM.is_bust, DBM.is_valid_darts_score, Darts.is_valid_darts_score,
      Populator.is_valid_darts_score, Populator.is_bust, INVALID_DARTS_SCORES_mem,
      Bool.or_eq_true, decide_eq_true_eq, beq_iff_eq, Bool.not_eq_true',
      Bool.or_eq_false_iff, beq_eq_false_iff_ne, ne_eq] <;>
    first
      | omega
      | (split <;> simp_all <;> omega)

/-! ### Merge-store lemmas -/

theorem seasonKey_cond (s sd : SeasonData) :
    (s.season == sd.season && s.team == sd.team && s.competition == sd.competition) = true ↔
      seasonKey s = seasonKey sd := by
  simp [seasonKey, Prod.ext_iff]
  tauto

theorem statsKey_cond (r arg : PlayerCareerStats) :
    (r.player_id == arg.player_id && r.team_id == arg.team_id &&
      r.competition_id == arg.competition_id && r.season == arg.season) = true ↔
      statsKey r = statsKey arg := by
  simp [statsKey, Prod.ext_iff]
  tauto

theorem upsertCareerStats_idem (stats : List SeasonData) (sd : SeasonData) :
    upsertCareerStats (upsertCareerStats stats sd) sd = upsertCareerStats stats sd := by
  induction stats with
  | nil => simp [upsertCareerStats]
  | cons s rest ih =>
    by_cases h : (s.season == sd.season && s.team == sd.team &&
        s.competition == sd.competition) = true
    · simp [upsertCareerStats, h]
    · rw [upsertCareerStats, if_neg (by simp [h]), upsertCareerStats, if_neg (by simp [h]), ih]

theorem mem_upsertCareerStats {b : SeasonData} {stats : List SeasonData} {sd : SeasonData}
    (hb : b ∈ upsertCareerStats stats sd) : b = sd ∨ b ∈ stats := by
  induction stats with
  | nil => simpa [upsertCareerStats] using hb
  | cons s rest ih =>
    by_cases h : (s.season == sd.season && s.team == sd.team &&
        s.competition == sd.competition) = true
    · rw [upsertCareerStats, if_pos h] at hb
      rcases List.mem_cons.mp hb with hb | hb
      · exact Or.inl hb
      · exact Or.inr (List.mem_cons_of_mem _ hb)
    · rw [upsertCareerStats, if_neg h] at hb
      rcases List.mem_cons.mp hb with hb | hb
      · exact Or.inr (hb ▸ List.mem_cons_self _ _)
      · rcases ih hb with hb | hb
        · exact Or.inl hb
        · exact Or.inr (List.mem_cons_of_mem _ hb)

theorem upsertCareerStats_pairwise {stats : List SeasonData} (sd : SeasonData)
    (h : stats.Pairwise fun a b => seasonKey a ≠ seasonKey b) :
    (upsertCareerStats stats sd).Pairwise fun a b => seasonKey a ≠ seasonKey b := by
  induction stats with
  | nil => simp [upsertCareerStats]
  | cons s rest ih =>
    rcases List.pairwise_cons.mp h with ⟨hs, hrest⟩
    by_cases hc : (s.season == sd.season && s.team == sd.team &&
        s.competition == sd.competition) = true
    · rw [upsertCareerStats, if_pos hc]
      refine List.pairwise_cons.mpr ⟨fun b hb => ?_, hrest⟩
      rw [← (seasonKey_cond s sd).mp hc]
      exact hs b hb
    · rw [upsertCareerStats, if_neg hc]
      refine List.pairwise_cons.mpr ⟨fun b hb => ?_, ih hrest⟩
      rcases mem_upsertCareerStats hb with hb | hb
      · rw [hb]
        exact fun he => hc ((seasonKey_cond s sd).mpr he)
      · exact hs b hb

theorem foldl_upsertCareerStats_pairwise (sds : List SeasonData) (acc : List SeasonData)
    (h : acc.Pairwise fun a b => seasonKey a ≠ seasonKey b) :
    (sds.foldl upsertCareerStats acc).Pairwise fun a b => seasonKey a ≠ seasonKey b := by
  induction sds generalizing acc with
  | nil => simpa using h
  | cons sd rest ih => exact ih _ (upsertCareerStats_pairwise sd h)

theorem filter_upsertCareerStats {stats : List SeasonData} (sd : SeasonData)
    (h : stats.Pairwise fun a b => seasonKey a ≠ seasonKey b) :
    (upsertCareerStats stats sd).filter (fun r => decide (seasonKey r = seasonKey sd)) =
      [sd] := by
  induction stats with
  | nil => simp [upsertCareerStats]
  | cons s rest ih =>
    rcases List.pairwise_cons.mp h with ⟨hs, hrest⟩
    by_cases hc : (s.season == sd.season && s.team == sd.team &&
        s.competition == sd.competition) = true
    · rw [upsertCareerStats, if_pos hc]
      have hkey := (seasonKey_cond s sd).mp hc
      have hnil : ∀ b ∈ rest, ¬ (seasonKey b = seasonKey sd) := by
        intro b hb he
        exact hs b hb (hkey.trans he.symm)
      rw [List.filter_cons_of_pos (by simp), List.filter_eq_nil_iff.mpr (by simpa using hnil)]
    · rw [upsertCareerStats, if_neg hc]
      have hkey : ¬ (seasonKey s = seasonKey sd) := fun he => hc ((seasonKey_cond s sd).mpr he)
      rw [List.filter_cons_of_neg (by simpa using hkey)]
      exact ih hrest

theorem length_upsertCareerStats {stats : List SeasonData} (sd : SeasonData)
    (h : (stats.any fun r => decide (seasonKey r = seasonKey sd)) = true) :
    (upsertCareerStats stats sd).length = stats.length := by
  induction stats with
  | nil => simp at h
  | cons s rest ih =>
    by_cases hc : (s.season == sd.season && s.team == sd.team &&
        s.competition == sd.competition) = true
    · rw [upsertCareerStats, if_pos hc]
      simp
    · rw [upsertCareerStats, if_neg hc]
      have hkey : ¬ (seasonKey s = seasonKey sd) := fun he => hc ((seasonKey_cond s sd).mpr he)
      simp only [List.any_cons, Bool.or_eq_true, decide_eq_true_eq] at h
      rcases h with h | h
      · exact (hkey h).elim
      · simp [ih h]

theorem upsert_v2_idem (tbl : List PlayerCareerStats) (arg : PlayerCareerStats) :
    upsert_player_career_stats (upsert_player_career_stats tbl arg) arg =
      upsert_player_career_stats tbl arg := by
  induction tbl with
  | nil => simp [upsert_player_career_stats]
  | cons r rest ih =>
    by_cases h : (r.player_id == arg.player_id && r.team_id == arg.team_id &&
        r.competition_id == arg.competition_id && r.season == arg.season) = true
    · rw [upsert_player_career_stats, if_pos h]
      rw [upsert_player_career_stats, if_pos (by simpa using h)]
    · rw [upsert_player_career_stats, if_neg h]
      rw [upsert_player_career_stats, if_neg h, ih]

theorem mem_upsert_v2 {b : PlayerCareerStats} {tbl : List PlayerCareerStats}
    {arg : PlayerCareerStats} (hb : b ∈ upsert_player_career_stats tbl arg) :
    statsKey b = statsKey arg ∨ b ∈ tbl := by
  induction tbl with
  | nil =>
    simp only [upsert_player_career_stats, List.mem_singleton] at hb
    subst hb; exact Or.inl rfl
  | cons r rest ih =>
    by_cases h : (r.player_id == arg.player_id && r.team_id == arg.team_id &&
        r.competition_id == arg.competition_id && r.season == arg.season) = true
    · rw [upsert_player_career_stats, if_pos h] at hb
      rcases List.mem_cons.mp hb with hb | hb
      · refine Or.inl ?_
        subst hb
        exact (statsKey_cond r arg).mp h
      · exact Or.inr (List.mem_cons_of_mem _ hb)
    · rw [upsert_player_career_stats, if_neg h] at hb
      rcases List.mem_cons.mp hb with hb | hb
      · exact Or.inr (hb ▸ List.mem_cons_self _ _)
      · rcases ih hb with hb | hb
        · exact Or.inl hb
        · exact Or.inr (List.mem_cons_of_mem _ hb)

theorem upsert_v2_pairwise {tbl : List PlayerCareerStats} (arg : PlayerCareerStats)
    (h : tbl.Pairwise fun a b => statsKey a ≠ statsKey b) :
    (upsert_player_career_stats tbl arg).Pairwise fun a b => statsKey a ≠ statsKey b := by
  induction tbl with
  | nil => simp [upsert_player_career_stats]
  | cons r rest ih =>
    rcases List.pairwise_cons.mp h with ⟨hr, hrest⟩
    by_cases hc : (r.player_id == arg.player_id && r.team_id == arg.team_id &&
        r.competition_id == arg.competition_id && r.season == arg.season) = true
    · rw [upsert_player_career_stats, if_pos hc]
      refine List.pairwise_cons.mpr ⟨fun b hb => ?_, hrest⟩
      exact hr b hb
    · rw [upsert_player_career_stats, if_neg hc]
      refine List.pairwise_cons.mpr ⟨fun b hb => ?_, ih hrest⟩
      rcases mem_upsert_v2 hb with hb | hb
      · intro he
        exact hc ((statsKey_cond r arg).mpr (he.trans hb))
      · exact hr b hb

theorem foldl_upsert_v2_pairwise (args : List PlayerCareerStats)
    (acc : List PlayerCareerStats)
    (h : acc.Pairwise fun a b => statsKey a ≠ statsKey b) :
    (args.foldl upsert_player_career_stats acc).Pairwise
      fun a b => statsKey a ≠ statsKey b := by
  induction args generalizing acc with
  | nil => simpa using h
  | cons arg rest ih => exact ih _ (upsert_v2_pairwise arg h)

theorem filter_upsert_v2 {tbl : List PlayerCareerStats} (arg : PlayerCareerStats)
    (h : tbl.Pairwise fun a b => statsKey a ≠ statsKey b) :
    (upsert_player_career_stats tbl arg).filter
      (fun r => decide (statsKey r = statsKey arg)) = [arg] := by
  induction tbl with
  | nil => simp [upsert_player_career_stats]
  | cons r rest ih =>
    rcases List.pairwise_cons.mp h with ⟨hr, hrest⟩
    by_cases hc : (r.player_id == arg.player_id && r.team_id == arg.team_id &&
        r.competition_id == arg.competition_id && r.season == arg.season) = true
    · rw [upsert_player_career_stats, if_pos hc]
      have hkey := (statsKey_cond r arg).mp hc
      have hupd : ({ r with
          appearances := arg.appearances
          goals := arg.goals
          assists := arg.assists
          clean_sheets := arg.clean_sheets
          minutes_played := arg.minutes_played } : PlayerCareerStats) = arg := by
        have h1 : r.player_id = arg.player_id := congrArg (fun k => k.1) hkey
        have h2 : r.team_id = arg.team_id := congrArg (fun k => k.2.1) hkey
        have h3 : r.competition_id = arg.competition_id := congrArg (fun k => k.2.2.1) hkey
        have h4 : r.season = arg.season := congrArg (fun k => k.2.2.2) hkey
        cases r; cases arg
        simp_all
      rw [hupd]
      have hnil : ∀ b ∈ rest, ¬ (statsKey b = statsKey arg) := by
        intro b hb he
        exact hr b hb (hkey.trans he.symm)
      rw [List.filter_cons_of_pos (by simp), List.filter_eq_nil_iff.mpr (by simpa using hnil)]
    · rw [upsert_player_career_stats, if_neg hc]
      have hkey : ¬ (statsKey r = statsKey arg) := fun he => hc ((statsKey_cond r arg).mpr he)
      rw [List.filter_cons_of_neg (by simpa using hkey)]
      exact ih hrest

/-- C5: the season upsert is idempotent.  For every stored state and every
argument tuple, a second identical call to
`crud_v3.py::add_player_season_stats` (players table) or to
`crud_v2.py::upsert_player_career_stats` (career-stats table) leaves the
stored season statistics exactly as after the first call. -/
theorem C5_upsert_idempotent (players : List Player3) (fid : String) (sd : SeasonData)
    (tbl : List PlayerCareerStats) (arg : PlayerCareerStats) :
    add_player_season_stats (add_player_season_stats players fid sd).1 fid sd =
      add_player_season_stats players fid sd ∧
    upsert_player_career_stats (upsert_player_career_stats tbl arg) arg =
      upsert_player_career_stats tbl arg := by
  refine ⟨?_, upsert_v2_idem tbl arg⟩
  induction players with
  | nil => simp [add_player_season_stats]
  | cons p ps ih =>
    by_cases h : (p.fbref_id == fid) = true
    · simp [add_player_season_stats, h, upsertCareerStats_idem]
    · have h' : (p.fbref_id == fid) = false := by simpa using h
      simp [add_player_season_stats, h', ih]

/-- C6: merge-by-key.  Starting from an empty store, any sequence of upserts
leaves at most one record per key (`Pairwise` distinct keys), an upsert whose
key is already present never grows the list, and two upserts with the same
key leave exactly one record for that key, holding the later counters — for
both `crud_v3.py::add_player_season_stats`'s career-stats loop and
`crud_v2.py::upsert_player_career_stats`. -/
theorem C6_merge_by_key (stats : List SeasonData) (sd sd₁ sd₂ : SeasonData)
    (sds : List SeasonData) (tbl : List PlayerCareerStats)
    (arg₁ arg₂ : PlayerCareerStats) :
    ((sds.foldl upsertCareerStats []).Pairwise fun a b => seasonKey a ≠ seasonKey b) ∧
    ((stats.any fun r => decide (seasonKey r = seasonKey sd)) = true →
      (upsertCareerStats stats sd).length = stats.length) ∧
    ((stats.Pairwise fun a b => seasonKey a ≠ seasonKey b) →
      seasonKey sd₁ = seasonKey sd₂ →
      (upsertCareerStats (upsertCareerStats stats sd₁) sd₂).filter
        (fun r => decide (seasonKey r = seasonKey sd₂)) = [sd₂]) ∧
    (∀ args : List PlayerCareerStats,
      (args.foldl upsert_player_career_stats []).Pairwise
        fun a b => statsKey a ≠ statsKey b) ∧
    ((tbl.Pairwise fun a b => statsKey a ≠ statsKey b) →
      statsKey arg₁ = statsKey arg₂ →
      (upsert_player_career_stats (upsert_player_career_stats tbl arg₁) arg₂).filter
        (fun r => decide (statsKey r = statsKey arg₂)) = [arg₂]) := by
  refine ⟨foldl_upsertCareerStats_pairwise sds [] (by simp),
    length_upsertCareerStats sd, fun h _ => ?_,
    fun args => foldl_upsert_v2_pairwise args [] (by simp),
    fun h _ => ?_⟩
  · exact filter_upsertCareerStats sd₂ (upsertCareerStats_pairwise sd₁ h)
  · exact filter_upsert_v2 arg₂ (upsert_v2_pairwise arg₁ h)

/-- C6 witness: the merge-by-key theorem instantiated on concrete records —
two upserts with the same `(season, team, competition)` key and counters
`1` then `2` leave exactly one record holding `2`. -/
theorem C6_merge_by_key_witness :
    (upsertCareerStats (upsertCareerStats [] ⟨"2023", "T", "t", "C", "c", 1, 0, 0, 0, 0⟩)
        ⟨"2023", "T", "t", "C", "c", 2, 0, 0, 0, 0⟩).filter
      (fun r => decide (seasonKey r = seasonKey ⟨"2023", "T", "t", "C", "c", 2, 0, 0, 0, 0⟩)) =
      [⟨"2023", "T", "t", "C", "c", 2, 0, 0, 0, 0⟩] :=
  (C6_merge_by_key [] ⟨"", "", "", "", "", 0, 0, 0, 0, 0⟩
      ⟨"2023", "T", "t", "C", "c", 1, 0, 0, 0, 0⟩ ⟨"2023", "T", "t", "C", "c", 2, 0, 0, 0, 0⟩
      [] [] ⟨0, 0, 0, "", 0, 0, 0, 0, 0⟩ ⟨0, 0, 0, "", 0, 0, 0, 0, 0⟩).2.2.1
    List.Pairwise.nil rfl

/-! ### Aggregation-engine theorems -/

/-- C4: for an entity whose matching rows are exactly
`(2022, TeamA, 10 appearances)` and `(2023, TeamA, 20 appearances)`, the
`'sum'` strategy scores 30 and the `'single_season'` / `'latest_season'`
strategies score 20, using only the counters of the chronologically
greatest season, for a question on metric `appearances`. -/
theorem C4_aggregation_strategies (pid g1 a1 c1 g2 a2 c2 : Int)
    (pn nn untry comp : String) (q : QuestionV2) :
    ((aggregate_stats 0
        [⟨pid, pn, nn, untry, "TeamA", comp, "2022", 10, g1, a1, c1⟩,
         ⟨pid, pn, nn, untry, "TeamA", comp, "2023", 20, g2, a2, c2⟩]
        { q with aggregation := "sum", stat_type := "appearances" }).map
      (fun agg => agg.map fun p => calculate_score p.2 "appearances")) = some [30] ∧
    ((aggregate_stats 0
        [⟨pid, pn, nn, untry, "TeamA", comp, "2022", 10, g1, a1, c1⟩,
         ⟨pid, pn, nn, untry, "TeamA", comp, "2023", 20, g2, a2, c2⟩]
        { q with aggregation := "single_season", stat_type := "appearances" }).map
      (fun agg => agg.map fun p => calculate_score p.2 "appearances")) = some [20] ∧
    ((aggregate_stats 0
        [⟨pid, pn, nn, untry, "TeamA", comp, "2022", 10, g1, a1, c1⟩,
         ⟨pid, pn, nn, untry, "TeamA", comp, "2023", 20, g2, a2, c2⟩]
        { q with aggregation := "latest_season", stat_type := "appearances" }).map
      (fun agg => agg.map fun p => calculate_score p.2 "appearances")) = some [20] := by
  refine ⟨?_, ?_, ?_⟩ <;>
    simp +decide [aggregate_stats, sumAggregate, sumStep, singleSeasonAggregate,
      singleSeasonStep, latestSeasonAggregate, maxSeason, dictLookup, dictInsert,
      defaultTotals, RawStat.toAggStats, calculate_score]

/-- C10: the claim's fallback is right about the intent but the code
diverges.  For any question whose `aggregation` is none of `'sum'`,
`'single_season'`, `'latest_season'`, `_aggregate_stats` recurses on itself
with unchanged arguments (despite logging "defaulting to sum"), so no
amount of fuel produces a result — the Python call dies with
`RecursionError` instead of returning the `'sum'` aggregation. -/
theorem C10_unknown_aggregation_diverges (fuel : Nat) (raw_stats : List RawStat)
    (q : QuestionV2) (h1 : q.aggregation ≠ "sum") (h2 : q.aggregation ≠ "single_season")
    (h3 : q.aggregation ≠ "latest_season") :
    aggregate_stats fuel raw_stats q = none := by
  induction fuel with
  | zero =>
    rw [aggregate_stats]
    simp [h1, h2, h3]
  | succ n ih =>
    rw [aggregate_stats]
    simp [h1, h2, h3, ih]

/-- C10 witness: the divergence theorem applied at a concrete unknown
strategy (`'average'`) with plenty of fuel. -/
theorem C10_unknown_aggregation_diverges_witness :
    aggregate_stats 1000 [] ⟨1, "appearances", "average", none, none, none, none, none⟩ =
      none :=
  C10_unknown_aggregation_diverges 1000 []
    ⟨1, "appearances", "average", none, none, none, none, none⟩
    (by decide) (by decide) (by decide)

/-- C9, counterexample: `_transform_to_answers` has no positivity check.
For a question without a minimum-score threshold, an entity whose computed
score is `0` is *stored* (even flagged as a valid darts score), not
dropped. -/
theorem C9_nonpositive_counterexample :
    transform_to_answers ⟨1, "appearances", "sum", none, none, none, none, none⟩
        [(7, ⟨7, "Zero Man", "zero man", 0, 0, 0, 0⟩)] =
      [⟨1, 7, "Zero Man", "zero man", 0, true, false⟩] := by
  decide

/-! ### V3 answer-population lemmas -/

theorem mem_computeAnswerRows {db : Db3} {question_id : String} {q : Question3}
    {a : AnswerRow} (ha : a ∈ computeAnswerRows db question_id q) :
    a.question_id = question_id ∧ 0 < a.score := by
  simp only [computeAnswerRows, List.mem_flatten, List.mem_map] at ha
  obtain ⟨l, ⟨p, _, hl⟩, hal⟩ := ha
  subst hl
  simp only [List.mem_map, List.mem_filter, Bool.and_eq_true, decide_eq_true_eq] at hal
  obtain ⟨row, ⟨_, hpos⟩, ha⟩ := hal
  subst ha
  exact ⟨rfl, hpos.2⟩

theorem teamFilterName_of_dangling {db : Db3} {q : Question3} {tid : String}
    (h : q.team_id = some tid)
    (hmiss : db.teams.find? (fun t => t.id == tid) = none) :
    teamFilterName db q = none := by
  unfold teamFilterName
  by_cases ht : pyTruthyStr q.team_id = true
  · simp [ht, h, hmiss]
  · simp [ht]

theorem compFilterName_of_dangling {db : Db3} {q : Question3} {cid : String}
    (h : q.competition_id = some cid)
    (hmiss : db.competitions.find? (fun c => c.id == cid) = none) :
    compFilterName db q = none := by
  unfold compFilterName
  by_cases hc : pyTruthyStr q.competition_id = true
  · simp [hc, h, hmiss]
  · simp [hc]

theorem computeAnswerRows_team_none {db : Db3} {question_id : String} {q : Question3}
    (hteam : teamFilterName db q = none) :
    computeAnswerRows db question_id q =
      computeAnswerRows db question_id { q with team_id := none } := by
  have hfn : ∀ row, rowMatchesFilters db q row =
      rowMatchesFilters db { q with team_id := none } row := by
    intro row
    have h2 : teamFilterName db { q with team_id := none } = none := by
      simp [teamFilterName, pyTruthyStr]
    have h3 : compFilterName db { q with team_id := none } = compFilterName db q := rfl
    rw [rowMatchesFilters, rowMatchesFilters, hteam, h2, h3]
  unfold computeAnswerRows
  simp only [hfn]

theorem computeAnswerRows_comp_none {db : Db3} {question_id : String} {q : Question3}
    (hcomp : compFilterName db q = none) :
    computeAnswerRows db question_id q =
      computeAnswerRows db question_id { q with competition_id := none } := by
  have hfn : ∀ row, rowMatchesFilters db q row =
      rowMatchesFilters db { q with competition_id := none } row := by
    intro row
    have h2 : compFilterName db { q with competition_id := none } = none := by
      simp [compFilterName, pyTruthyStr]
    have h3 : teamFilterName db { q with competition_id := none } = teamFilterName db q := rfl
    rw [rowMatchesFilters, rowMatchesFilters, hcomp, h2, h3]
  unfold computeAnswerRows
  simp only [hfn]

/-- C2, counterexample: with one stored player and a question whose
`team_id` points at a deleted team, `populate_question_answers` succeeds
and returns a *non-empty* answer set (the dangling filter is silently
dropped, so every player matches), contradicting the claimed empty set. -/
theorem C2_dangling_filter_counterexample :
    (populate_question_answers
        { teams := []
          competitions := []
          players := [⟨"p1", "fb1", "Alan Shearer", "alan shearer",
            [⟨"2023-2024", "Newcastle United", "t1", "Premier League", "c1",
              30, 10, 2, 0, 2700⟩]⟩]
          questions := [⟨"q1", "appearances", some "t-deleted", none, none⟩]
          answers := [] } "q1").1.answers ≠ [] ∧
    (populate_question_answers
        { teams := []
          competitions := []
          players := [⟨"p1", "fb1", "Alan Shearer", "alan shearer",
            [⟨"2023-2024", "Newcastle United", "t1", "Premier League", "c1",
              30, 10, 2, 0, 2700⟩]⟩]
          questions := [⟨"q1", "appearances", some "t-deleted", none, none⟩]
          answers := [] } "q1").2 = PopulateResult.count 1 := by
  decide

/-- C2, amended: a question whose `team_id` / `competition_id` refers to a
deleted team/competition raises no missing-reference error; the dangling
clause is never added to the query, so the call behaves exactly as if the
question had no such filter: when the as-if-unfiltered rows respect the
`uq_question_player` constraint (at most one matching positive-score
season element per player) they become the stored Answer Set — non-empty
whenever any row matches, not empty — and when some player has several
matching rows the INSERT raises `IntegrityError` and rolls back, leaving
the stored answers unchanged. -/
theorem C2_dangling_filter_amended (db : Db3) (question_id : String) (q : Question3)
    (hq : findQuestion db question_id = some q) :
    (∀ tid, q.team_id = some tid →
      db.teams.find? (fun t => t.id == tid) = none →
      populate_question_answers db question_id =
        (if dupPlayerIds (computeAnswerRows db question_id { q with team_id := none }) then
          (db, PopulateResult.integrityError)
         else
          ({ db with answers :=
              (db.answers.filter fun a => a.question_id != question_id) ++
                computeAnswerRows db question_id { q with team_id := none } },
           PopulateResult.count
             (computeAnswerRows db question_id { q with team_id := none }).length))) ∧
    (∀ cid, q.competition_id = some cid →
      db.competitions.find? (fun c => c.id == cid) = none →
      populate_question_answers db question_id =
        (if dupPlayerIds (computeAnswerRows db question_id { q with competition_id := none }) then
          (db, PopulateResult.integrityError)
         else
          ({ db with answers :=
              (db.answers.filter fun a => a.question_id != question_id) ++
                computeAnswerRows db question_id { q with competition_id := none } },
           PopulateResult.count
             (computeAnswerRows db question_id { q with competition_id := none }).length))) := by
  constructor
  · intro tid htid hmiss
    rw [populate_question_answers, hq,
      ← computeAnswerRows_team_none (teamFilterName_of_dangling htid hmiss)]
  · intro cid hcid hmiss
    rw [populate_question_answers, hq,
      ← computeAnswerRows_comp_none (compFilterName_of_dangling hcid hmiss)]

/-- C2 witness: the amended theorem applied to a concrete database whose
only question filters on a deleted team and whose one player has a single
matching season row: no constraint violation, so the call succeeds and the
stored answers coincide with the unfiltered ones. -/
theorem C2_dangling_filter_amended_witness :
    populate_question_answers
        { teams := []
          competitions := []
          players := [⟨"p1", "fb1", "Alan Shearer", "alan shearer",
            [⟨"2023-2024", "Newcastle United", "t1", "Premier League", "c1",
              30, 10, 2, 0, 2700⟩]⟩]
          questions := [⟨"q1", "appearances", some "t-deleted", none, none⟩]
          answers := [] } "q1" =
      ({ teams := []
         competitions := []
         players := [⟨"p1", "fb1", "Alan Shearer", "alan shearer",
           [⟨"2023-2024", "Newcastle United", "t1", "Premier League", "c1",
             30, 10, 2, 0, 2700⟩]⟩]
         questions := [⟨"q1", "appearances", some "t-deleted", none, none⟩]
         answers :=
           computeAnswerRows
             { teams := []
               competitions := []
               players := [⟨"p1", "fb1", "Alan Shearer", "alan shearer",
                 [⟨"2023-2024", "Newcastle United", "t1", "Premier League", "c1",
                   30, 10, 2, 0, 2700⟩]⟩]
               questions := [⟨"q1", "appearances", some "t-deleted", none, none⟩]
               answers := [] } "q1"
             ⟨"q1", "appearances", none, none, none⟩ },
       PopulateResult.count 1) :=
  ((C2_dangling_filter_amended _ "q1" ⟨"q1", "appearances", some "t-deleted", none, none⟩
      (by decide)).1 "t-deleted" rfl (by decide)).trans (by decide)

/-! ### Rate-limiter theorems -/

theorem RateLimiter_step_ge (wait_time last current : ℚ) :
    last + wait_time ≤ RateLimiter.step wait_time last current := by
  by_cases h : current - last < wait_time
  · rw [RateLimiter.step, if_pos h]
  · rw [RateLimiter.step, if_neg h]
    linarith [not_lt.mp h]

theorem RateLimiter_waitRun_getD_ge (wait_time : ℚ) (cs : List ℚ) :
    ∀ (last : ℚ) (j : ℕ), j < (RateLimiter.waitRun wait_time last cs).length →
      last + ((j : ℚ) + 1) * wait_time ≤ (RateLimiter.waitRun wait_time last cs).getD j 0 := by
  induction cs with
  | nil =>
    intro last j hj
    simp [RateLimiter.waitRun] at hj
  | cons c cs ih =>
    intro last j hj
    match j with
    | 0 =>
      simpa [RateLimiter.waitRun] using RateLimiter_step_ge wait_time last c
    | Nat.succ j' =>
      have hj' : j' < (RateLimiter.waitRun wait_time
          (RateLimiter.step wait_time last c) cs).length := by
        simpa [RateLimiter.waitRun] using hj
      have h1 := ih (RateLimiter.step wait_time last c) j' hj'
      have h2 := RateLimiter_step_ge wait_time last c
      have hD : (RateLimiter.waitRun wait_time last (c :: cs)).getD (j' + 1) 0 =
          (RateLimiter.waitRun wait_time (RateLimiter.step wait_time last c) cs).getD j' 0 :=
        rfl
      rw [hD]
      push_cast
      push_cast at h1
      linarith

/-- C8: rate bound.  `wait()` holds `self.lock` for its whole body, so any
number of concurrently calling workers serialize into a sequence of atomic
steps (`RateLimiter.waitRun`); over rational-valued time with exact sleeps,
the `i`-th and `j`-th completed calls are at least `(j − i) · wait_time`
apart — in particular `N` completed calls span at least
`(N − 1) · wait_time`, so the aggregate request rate never exceeds
`1 / wait_time` regardless of worker count. -/
theorem C8_rate_bound (wait_time last : ℚ) (cs : List ℚ) (i j : ℕ) (hij : i ≤ j)
    (hj : j < (RateLimiter.waitRun wait_time last cs).length) :
    ((j : ℚ) - (i : ℚ)) * wait_time ≤
      (RateLimiter.waitRun wait_time last cs).getD j 0 -
        (RateLimiter.waitRun wait_time last cs).getD i 0 := by
  induction cs generalizing last i j with
  | nil => simp [RateLimiter.waitRun] at hj
  | cons c cs ih =>
    match i, j with
    | 0, 0 => simp
    | 0, Nat.succ j' =>
      have hj' : j' < (RateLimiter.waitRun wait_time
          (RateLimiter.step wait_time last c) cs).length := by
        simpa [RateLimiter.waitRun] using hj
      have h1 := RateLimiter_waitRun_getD_ge wait_time cs
        (RateLimiter.step wait_time last c) j' hj'
      have hD : (RateLimiter.waitRun wait_time last (c :: cs)).getD (j' + 1) 0 =
          (RateLimiter.waitRun wait_time (RateLimiter.step wait_time last c) cs).getD j' 0 :=
        rfl
      have hD0 : (RateLimiter.waitRun wait_time last (c :: cs)).getD 0 0 =
          RateLimiter.step wait_time last c := rfl
      rw [hD, hD0]
      push_cast
      push_cast at h1
      linarith
    | Nat.succ i', Nat.succ j' =>
      have hij' : i' ≤ j' := Nat.succ_le_succ_iff.mp hij
      have hj' : j' < (RateLimiter.waitRun wait_time
          (RateLimiter.step wait_time last c) cs).length := by
        simpa [RateLimiter.waitRun] using hj
      have h1 := ih (RateLimiter.step wait_time last c) i' j' hij' hj'
      have hDj : (RateLimiter.waitRun wait_time last (c :: cs)).getD (j' + 1) 0 =
          (RateLimiter.waitRun wait_time (RateLimiter.step wait_time last c) cs).getD j' 0 :=
        rfl
      have hDi : (RateLimiter.waitRun wait_time last (c :: cs)).getD (i' + 1) 0 =
          (RateLimiter.waitRun wait_time (RateLimiter.step wait_time last c) cs).getD i' 0 :=
        rfl
      rw [hDj, hDi]
      push_cast
      push_cast at h1
      linarith

/-- C8 witness: three calls with `wait_time = 2` starting from
`last_request_time = 0`, observing clock values `0, 0, 10`: completions
are `2, 4, 10`, and the first and third are at least `2 · 2 = 4` apart. -/
theorem C8_rate_bound_witness :
    ((2 : ℚ) - (0 : ℚ)) * 2 ≤
      (RateLimiter.waitRun 2 0 [0, 0, 10]).getD 2 0 -
        (RateLimiter.waitRun 2 0 [0, 0, 10]).getD 0 0 :=
  C8_rate_bound 2 0 [0, 0, 10] 0 2 (by decide) (by decide)

/-! ### Atomicity of answer replacement -/

/-- C3, counterexample: with at least one active question stored,
`populate_answers_v2.py::run` passes the no-questions early return and
commits the deletion of **all** stored answers (lines 54–56) before
computing anything; that cleared state is durable (`runV2_commit_states`),
so a failure during the subsequent computation leaves a previously stored
answer — here one belonging to a different question `"q7"` — destroyed,
contradicting the claim that every previously stored Answer is unchanged
on failure. -/
theorem C3_clear_commit_counterexample :
    (⟨"q7", "k", "K", 10, true, false⟩ : AnswerV4) ∈
      (⟨[], [⟨"q1", "goals", [], none, true⟩],
        [⟨"q7", "k", "K", 10, true, false⟩]⟩ : Db4).answers ∧
    (⟨"q7", "k", "K", 10, true, false⟩ : AnswerV4) ∉
      (runV2_afterClear ⟨[], [⟨"q1", "goals", [], none, true⟩],
        [⟨"q7", "k", "K", 10, true, false⟩]⟩).answers ∧
    runV2_afterClear ⟨[], [⟨"q1", "goals", [], none, true⟩],
        [⟨"q7", "k", "K", 10, true, false⟩]⟩ ∈
      runV2_commit_states ⟨[], [⟨"q1", "goals", [], none, true⟩],
        [⟨"q7", "k", "K", 10, true, false⟩]⟩ := by
  decide

/-- C3, amended: per-question recomputation through
`crud_v3.py::populate_question_answers` *is* atomic — its delete and
insert happen in one transaction, so in every outcome the answers of
other questions are unchanged; when the INSERT violates
`uq_question_player` the transaction rolls back and the whole state
(including the question's prior answer set) is unchanged; on success the
question's answer set is replaced wholesale by the computed rows.  The
bulk script `populate_answers_v2.py::run`, by contrast, whenever at least
one active question exists, commits a state in which every question's
answers are deleted before any new answer is written. -/
theorem C3_amended_atomic_replacement (db : Db3) (question_id : String) (db4 : Db4) :
    ((populate_question_answers db question_id).1.answers.filter
        fun a => a.question_id != question_id) =
      (db.answers.filter fun a => a.question_id != question_id) ∧
    ((populate_question_answers db question_id).2 = PopulateResult.integrityError →
      (populate_question_answers db question_id).1 = db) ∧
    (∀ q, findQuestion db question_id = some q →
      (populate_question_answers db question_id).2 ≠ PopulateResult.integrityError →
      ((populate_question_answers db question_id).1.answers.filter
          fun a => a.question_id == question_id) =
        computeAnswerRows db question_id q) ∧
    ((db4.questions.filter fun q => q.is_active) ≠ [] →
      (runV2_afterClear db4).answers = [] ∧
      runV2_afterClear db4 ∈ runV2_commit_states db4) := by
  refine ⟨?_, ?_, ?_, ?_⟩
  · cases hq : findQuestion db question_id with
    | none => rw [populate_question_answers, hq]
    | some q =>
      by_cases hdup : dupPlayerIds (computeAnswerRows db question_id q) = true
      · simp only [populate_question_answers, hq]
        rw [if_pos hdup]
      · simp only [populate_question_answers, hq]
        rw [if_neg hdup]
        simp only [List.filter_append]
        have h1 : ((db.answers.filter fun a => a.question_id != question_id).filter
            fun a => a.question_id != question_id) =
            db.answers.filter fun a => a.question_id != question_id := by
          rw [List.filter_filter]
          simp
        have h2 : ((computeAnswerRows db question_id q).filter
            fun a => a.question_id != question_id) = [] := by
          rw [List.filter_eq_nil_iff]
          intro a ha
          simp [(mem_computeAnswerRows ha).1]
        rw [h1, h2, List.append_nil]
  · cases hq : findQuestion db question_id with
    | none =>
      rw [populate_question_answers, hq]
      intro h
      exact absurd h (by simp)
    | some q =>
      by_cases hdup : dupPlayerIds (computeAnswerRows db question_id q) = true
      · simp only [populate_question_answers, hq]
        rw [if_pos hdup]
        exact fun _ => rfl
      · simp only [populate_question_answers, hq]
        rw [if_neg hdup]
        intro h
        exact absurd h (by simp)
  · intro q hq hne
    by_cases hdup : dupPlayerIds (computeAnswerRows db question_id q) = true
    · simp only [populate_question_answers, hq] at hne
      rw [if_pos hdup] at hne
      exact absurd rfl hne
    · simp only [populate_question_answers, hq]
      rw [if_neg hdup]
      simp only [List.filter_append]
      have h1 : ((db.answers.filter fun a => a.question_id != question_id).filter
          fun a => a.question_id == question_id) = [] := by
        rw [List.filter_eq_nil_iff]
        intro a ha
        have := (List.mem_filter.mp ha).2
        simp only [bne_iff_ne, ne_eq] at this
        simp [this]
      have h2 : ((computeAnswerRows db question_id q).filter
          fun a => a.question_id == question_id) =
          computeAnswerRows db question_id q := by
        rw [List.filter_eq_self]
        intro a ha
        simp [(mem_computeAnswerRows ha).1]
      rw [h1, h2, List.nil_append]
  · intro h
    refine ⟨rfl, ?_⟩
    rw [runV2_commit_states, if_neg (by simpa [List.isEmpty_iff] using h)]
    exact List.mem_cons_self _ _

/-- C3 witness: the amended theorem applied concretely — a successful
per-question recomputation (one player, one matching row, no constraint
violation) replaces the question's answer set with the computed rows, and
a V4 database holding one active question makes the cleared state a
durable commit of `run`. -/
theorem C3_amended_atomic_replacement_witness :
    ((populate_question_answers
        { teams := []
          competitions := []
          players := [⟨"p9", "fb9", "Eric Cantona", "eric cantona",
            [⟨"1995-1996", "Manchester United", "t9", "Premier League", "c9",
              30, 14, 0, 0, 2700⟩]⟩]
          questions := [⟨"q9", "goals", none, none, none⟩]
          answers := [] } "q9").1.answers.filter
        fun a => a.question_id == "q9") =
      computeAnswerRows
        { teams := []
          competitions := []
          players := [⟨"p9", "fb9", "Eric Cantona", "eric cantona",
            [⟨"1995-1996", "Manchester United", "t9", "Premier League", "c9",
              30, 14, 0, 0, 2700⟩]⟩]
          questions := [⟨"q9", "goals", none, none, none⟩]
          answers := [] } "q9" ⟨"q9", "goals", none, none, none⟩ ∧
    (runV2_afterClear ⟨[], [⟨"q8", "goals", [], none, true⟩],
        [⟨"q7", "k", "K", 10, true, false⟩]⟩).answers = [] ∧
    runV2_afterClear ⟨[], [⟨"q8", "goals", [], none, true⟩],
        [⟨"q7", "k", "K", 10, true, false⟩]⟩ ∈
      runV2_commit_states ⟨[], [⟨"q8", "goals", [], none, true⟩],
        [⟨"q7", "k", "K", 10, true, false⟩]⟩ :=
  ⟨(C3_amended_atomic_replacement
      { teams := []
        competitions := []
        players := [⟨"p9", "fb9", "Eric Cantona", "eric cantona",
          [⟨"1995-1996", "Manchester United", "t9", "Premier League", "c9",
            30, 14, 0, 0, 2700⟩]⟩]
        questions := [⟨"q9", "goals", none, none, none⟩]
        answers := [] } "q9"
      ⟨[], [⟨"q8", "goals", [], none, true⟩],
        [⟨"q7", "k", "K", 10, true, false⟩]⟩).2.2.1
      ⟨"q9", "goals", none, none, none⟩ (by decide) (by decide),
   (C3_amended_atomic_replacement
      { teams := []
        competitions := []
        players := [⟨"p9", "fb9", "Eric Cantona", "eric cantona",
          [⟨"1995-1996", "Manchester United", "t9", "Premier League", "c9",
            30, 14, 0, 0, 2700⟩]⟩]
        questions := [⟨"q9", "goals", none, none, none⟩]
        answers := [] } "q9"
      ⟨[], [⟨"q8", "goals", [], none, true⟩],
        [⟨"q7", "k", "K", 10, true, false⟩]⟩).2.2.2 (by decide)⟩

/-! ### Positivity of stored scores -/

theorem runStep_answers_pos {st : RunState} (p : PlayerV4) (q : QuestionV4)
    (h : ∀ a ∈ st.answers, 0 < a.score) :
    ∀ a ∈ (runStep p st q).answers, 0 < a.score := by
  intro a ha
  by_cases h1 : ((p.career_stats.filter fun row => matchesConfig row q.config).isEmpty) = true
  · rw [runStep, if_pos h1] at ha
    exact h a ha
  · rw [runStep, if_neg h1] at ha
    by_cases h2 : totalScore p q > 0
    · rw [if_pos h2] at ha
      by_cases h3 : p.normalized_name ∈ seenLookup st.seen q.id
      · rw [if_pos h3] at ha
        exact h a ha
      · rw [if_neg h3] at ha
        by_cases h4 : (pyTruthyInt q.min_score &&
            totalScore p q < q.min_score.getD 0) = true
        · rw [if_pos h4] at ha
          exact h a ha
        · rw [if_neg h4] at ha
          rcases List.mem_append.mp ha with ha | ha
          · exact h a ha
          · rcases List.mem_singleton.mp ha with rfl
            simpa [answerOf] using h2
    · rw [if_neg h2] at ha
      exact h a ha

theorem foldl_runStep_answers_pos (p : PlayerV4) (qs : List QuestionV4) :
    ∀ st : RunState, (∀ a ∈ st.answers, 0 < a.score) →
      ∀ a ∈ (qs.foldl (runStep p) st).answers, 0 < a.score := by
  induction qs with
  | nil => intro st h; exact h
  | cons q qs ih =>
    intro st h
    exact ih (runStep p st q) (runStep_answers_pos p q h)

theorem runAnswers_pos (players : List PlayerV4) (questions : List QuestionV4) :
    ∀ a ∈ runAnswers players questions, 0 < a.score := by
  suffices hgen : ∀ st : RunState, (∀ a ∈ st.answers, 0 < a.score) →
      ∀ a ∈ (players.foldl (runPlayer questions) st).answers, 0 < a.score by
    exact hgen ⟨[], []⟩ (by simp)
  induction players with
  | nil => intro st h; exact h
  | cons p ps ih =>
    intro st h
    refine ih (runPlayer questions st p) ?_
    by_cases hc : (p.career_stats.isEmpty) = true
    · rw [runPlayer, if_pos hc]
      exact h
    · rw [runPlayer, if_neg hc]
      exact foldl_runStep_answers_pos p questions st h

theorem transform_min_score_bound (q : QuestionV2) (agg : List (Int × AggStats)) :
    ∀ a ∈ transform_to_answers q agg,
      pyTruthyInt q.min_score = true → q.min_score.getD 0 ≤ a.score := by
  induction agg with
  | nil => simp [transform_to_answers]
  | cons e rest ih =>
    intro a ha htr
    obtain ⟨pid, stats⟩ := e
    rw [transform_to_answers] at ha
    by_cases hc : (pyTruthyInt q.min_score &&
        calculate_score stats q.stat_type < q.min_score.getD 0) = true
    · rw [if_pos hc] at ha
      exact ih a ha htr
    · rw [if_neg hc] at ha
      rcases List.mem_cons.mp ha with rfl | ha
      · simp only [htr, Bool.true_and, decide_eq_true_eq] at hc
        exact not_lt.mp hc
      · exact ih a ha htr

/-- C9, amended: the positivity rule holds on two of the three answer
paths — every answer computed by `populate_answers_v2.py::run` and every
row inserted by `crud_v3.py::populate_question_answers` has a strictly
positive score — but `QuestionPopulator._transform_to_answers` enforces
only the (truthy) `min_score` threshold: answers below a set threshold are
dropped, while without a threshold non-positive scores are stored (see the
counterexample). -/
theorem C9_amended_positivity (players : List PlayerV4) (questions : List QuestionV4)
    (db : Db3) (question_id : String) (q3 : Question3)
    (q2 : QuestionV2) (agg : List (Int × AggStats)) :
    (∀ a ∈ runAnswers players questions, 0 < a.score) ∧
    (∀ a ∈ computeAnswerRows db question_id q3, 0 < a.score) ∧
    (∀ a ∈ transform_to_answers q2 agg,
      pyTruthyInt q2.min_score = true → q2.min_score.getD 0 ≤ a.score) :=
  ⟨runAnswers_pos players questions,
   fun _ ha => (mem_computeAnswerRows ha).2,
   transform_min_score_bound q2 agg⟩

/-- C9 witness: the amended theorem applied to a concrete run — a single
player totalling 15 goals yields a stored answer with positive score. -/
theorem C9_amended_positivity_witness :
    0 <
      (runAnswers [⟨"pb", "John Smith", "j smith", [[("goals", JVal.jint 15)]]⟩]
        [⟨"qz", "goals", [], none, true⟩]).foldr (fun a m => min a.score m) 1 := by
  have h := (C9_amended_positivity
    [⟨"pb", "John Smith", "j smith", [[("goals", JVal.jint 15)]]⟩]
    [⟨"qz", "goals", [], none, true⟩] ⟨[], [], [], [], []⟩ "" ⟨"", "", none, none, none⟩
    ⟨0, "", "", none, none, none, none, none⟩ []).1
  have hrun : runAnswers [⟨"pb", "John Smith", "j smith", [[("goals", JVal.jint 15)]]⟩]
      [⟨"qz", "goals", [], none, true⟩] =
      [⟨"qz", "j smith", "John Smith", 15, true, false⟩] := by decide
  have hmem : (⟨"qz", "j smith", "John Smith", 15, true, false⟩ : AnswerV4) ∈
      runAnswers [⟨"pb", "John Smith", "j smith", [[("goals", JVal.jint 15)]]⟩]
        [⟨"qz", "goals", [], none, true⟩] := by
    rw [hrun]
    exact List.mem_singleton.mpr rfl
  have hpos := h _ hmem
  rw [hrun]
  simp only [List.foldr]
  exact lt_min hpos one_pos

/-! ### Deduplication lemmas (`populate_answers_v2.py::run`) -/

theorem seenLookup_seenAdd_same (seen : List (String × List String)) (qid k : String) :
    seenLookup (seenAdd seen qid k) qid = k :: seenLookup seen qid := by
  induction seen with
  | nil => simp [seenAdd, seenLookup]
  | cons e rest ih =>
    obtain ⟨qid', ks⟩ := e
    by_cases h : (qid' == qid) = true
    · rw [seenAdd, if_pos h, seenLookup, if_pos h, seenLookup, if_pos h]
    · rw [seenAdd, if_neg h, seenLookup, if_neg h, seenLookup, if_neg h, ih]

theorem seenLookup_seenAdd_ne (seen : List (String × List String)) {qid qid₂ : String}
    (k : String) (h : qid₂ ≠ qid) :
    seenLookup (seenAdd seen qid k) qid₂ = seenLookup seen qid₂ := by
  induction seen with
  | nil =>
    simp only [seenAdd, seenLookup]
    rw [if_neg (by simpa using Ne.symm h)]
  | cons e rest ih =>
    obtain ⟨qid', ks⟩ := e
    by_cases hh : (qid' == qid) = true
    · have hq' : qid' = qid := by simpa using hh
      have hne : ¬ ((qid' == qid₂) = true) := by
        simp [hq']
        exact Ne.symm h
      rw [seenAdd, if_pos hh, seenLookup, if_neg hne, seenLookup, if_neg hne]
    · rw [seenAdd, if_neg hh, seenLookup, seenLookup]
      by_cases h2 : (qid' == qid₂) = true
      · rw [if_pos h2, if_pos h2]
      · rw [if_neg h2, if_neg h2, ih]

theorem claimsKey_true_of {p : PlayerV4} {q : QuestionV4}
    (h1 : ¬ ((p.career_stats.filter fun row => matchesConfig row q.config).isEmpty = true))
    (h2 : totalScore p q > 0) : claimsKey p q = true := by
  simp only [claimsKey, Bool.and_eq_true, Bool.not_eq_true']
  exact ⟨by simpa using h1, by simpa using h2⟩

theorem claimsKey_false_empty {p : PlayerV4} {q : QuestionV4}
    (h1 : (p.career_stats.filter fun row => matchesConfig row q.config).isEmpty = true) :
    claimsKey p q = false := by
  simp [claimsKey, h1]

theorem claimsKey_false_nonpos {p : PlayerV4} {q : QuestionV4}
    (h2 : ¬ (totalScore p q > 0)) : claimsKey p q = false := by
  simp [claimsKey, h2]

theorem projArr_runStep_ne (p : PlayerV4) (st : RunState) (q' q : QuestionV4)
    (k : String) (h : q'.id ≠ q.id) :
    projArr (runStep p st q') q k = projArr st q k := by
  by_cases h1 : ((p.career_stats.filter fun row => matchesConfig row q'.config).isEmpty) = true
  · rw [runStep, if_pos h1]
  · rw [runStep, if_neg h1]
    by_cases h2 : totalScore p q' > 0
    · rw [if_pos h2]
      by_cases h3 : p.normalized_name ∈ seenLookup st.seen q'.id
      · rw [if_pos h3]
      · rw [if_neg h3]
        have hseen : seenLookup (seenAdd st.seen q'.id p.normalized_name) q.id =
            seenLookup st.seen q.id :=
          seenLookup_seenAdd_ne st.seen p.normalized_name (Ne.symm h)
        by_cases h4 : (pyTruthyInt q'.min_score &&
            totalScore p q' < q'.min_score.getD 0) = true
        · rw [if_pos h4]
          simp [projArr, hseen]
        · rw [if_neg h4]
          simp only [projArr, hseen, List.filter_append]
          have : ([answerOf p q'].filter
              fun a => a.question_id == q.id && a.answer_key == k) = [] := by
            simp [answerOf, h]
          rw [this, List.append_nil]
    · rw [if_neg h2]

theorem projArr_runStep_self (p : PlayerV4) (st : RunState) (q : QuestionV4)
    (k : String) :
    projArr (runStep p st q) q k = keyStep q k (projArr st q k) p := by
  by_cases h1 : ((p.career_stats.filter fun row => matchesConfig row q.config).isEmpty) = true
  · rw [runStep, if_pos h1, keyStep,
      if_neg (by simp [claimsKey_false_empty h1])]
  · rw [runStep, if_neg h1]
    by_cases h2 : totalScore p q > 0
    · rw [if_pos h2]
      have hck := claimsKey_true_of h1 h2
      by_cases hpk : p.normalized_name = k
      · subst hpk
        by_cases h3 : p.normalized_name ∈ seenLookup st.seen q.id
        · rw [if_pos h3, keyStep, if_neg (by simp [projArr, h3])]
        · rw [if_neg h3]
          have hmem : p.normalized_name ∈
              seenLookup (seenAdd st.seen q.id p.normalized_name) q.id := by
            rw [seenLookup_seenAdd_same]
            exact List.mem_cons_self _ _
          by_cases h4 : (pyTruthyInt q.min_score &&
              totalScore p q < q.min_score.getD 0) = true
          · rw [if_pos h4, keyStep, if_pos (by simp [projArr, hck, h3])]
            have hpass : passesMinScore p q = false := by
              simp only [passesMinScore, h4]
              rfl
            simp [projArr, hmem, hpass]
          · rw [if_neg h4, keyStep, if_pos (by simp [projArr, hck, h3])]
            have hpass : passesMinScore p q = true := by
              simp only [passesMinScore]
              simp [h4]
            have hfilter1 : ([answerOf p q].filter
                fun a => a.question_id == q.id && a.answer_key == p.normalized_name) =
                [answerOf p q] := by
              simp [answerOf]
            simp [projArr, hmem, hpass, List.filter_append, hfilter1]
      · have hcond : (p.normalized_name == k && claimsKey p q &&
            !(projArr st q k).1) = false := by
          simp [hpk]
        by_cases h3 : p.normalized_name ∈ seenLookup st.seen q.id
        · rw [if_pos h3, keyStep, if_neg (by simp [hcond])]
        · rw [if_neg h3]
          have hseen : (k ∈ seenLookup (seenAdd st.seen q.id p.normalized_name) q.id) =
              (k ∈ seenLookup st.seen q.id) := by
            rw [seenLookup_seenAdd_same]
            simp [List.mem_cons, Ne.symm hpk]
          by_cases h4 : (pyTruthyInt q.min_score &&
              totalScore p q < q.min_score.getD 0) = true
          · rw [if_pos h4, keyStep, if_neg (by simp [hcond])]
            simp [projArr, hseen]
          · rw [if_neg h4, keyStep, if_neg (by simp [hcond])]
            simp only [projArr, hseen, List.filter_append]
            have : ([answerOf p q].filter
                fun a => a.question_id == q.id && a.answer_key == k) = [] := by
              simp [answerOf, hpk]
            rw [this, List.append_nil]
    · rw [if_neg h2, keyStep,
        if_neg (by simp [claimsKey_false_nonpos h2])]

theorem projArr_foldl_ne (p : PlayerV4) (l : List QuestionV4) (q : QuestionV4)
    (k : String) (h : ∀ q' ∈ l, q'.id ≠ q.id) :
    ∀ st : RunState, projArr (l.foldl (runStep p) st) q k = projArr st q k := by
  induction l with
  | nil => intro st; rfl
  | cons q' l ih =>
    intro st
    rw [List.foldl_cons, ih (fun x hx => h x (List.mem_cons_of_mem _ hx)),
      projArr_runStep_ne p st q' q k (h q' (List.mem_cons_self _ _))]

theorem projArr_runPlayer (p : PlayerV4) (st : RunState) (qs : List QuestionV4)
    (q : QuestionV4) (k : String) (hq : q ∈ qs)
    (hnodup : qs.Pairwise fun a b => a.id ≠ b.id) :
    projArr (runPlayer qs st p) q k = keyStep q k (projArr st q k) p := by
  by_cases hc : (p.career_stats.isEmpty) = true
  · have hnil : ((p.career_stats.filter fun row => matchesConfig row q.config).isEmpty) =
        true := by
      have he : p.career_stats = [] := by simpa using hc
      simp [he]
    rw [runPlayer, if_pos hc, keyStep, if_neg (by simp [claimsKey_false_empty hnil])]
  · rw [runPlayer, if_neg hc]
    obtain ⟨l1, l2, rfl⟩ := List.append_of_mem hq
    have hsplit := List.pairwise_append.mp hnodup
    have hl1 : ∀ q' ∈ l1, q'.id ≠ q.id := fun q' hx =>
      hsplit.2.2 q' hx q (List.mem_cons_self _ _)
    have hl2 : ∀ q' ∈ l2, q'.id ≠ q.id := fun q' hx =>
      Ne.symm ((List.pairwise_cons.mp hsplit.2.1).1 q' hx)
    rw [List.foldl_append, List.foldl_cons,
      projArr_foldl_ne p l2 q k hl2,
      projArr_runStep_self, projArr_foldl_ne p l1 q k hl1]

theorem projArr_foldl_players (players : List PlayerV4) (qs : List QuestionV4)
    (q : QuestionV4) (k : String) (hq : q ∈ qs)
    (hnodup : qs.Pairwise fun a b => a.id ≠ b.id) :
    ∀ st : RunState, projArr (players.foldl (runPlayer qs) st) q k =
      players.foldl (keyStep q k) (projArr st q k) := by
  induction players with
  | nil => intro st; rfl
  | cons p ps ih =>
    intro st
    rw [List.foldl_cons, List.foldl_cons, ih, projArr_runPlayer p st qs q k hq hnodup]

theorem keyStep_foldl_claimed (q : QuestionV4) (k : String) (players : List PlayerV4) :
    ∀ acc : Bool × List AnswerV4, acc.1 = true →
      players.foldl (keyStep q k) acc = acc := by
  induction players with
  | nil => intro acc _; rfl
  | cons p ps ih =>
    intro acc h
    rw [List.foldl_cons, keyStep, if_neg (by simp [h]), ih acc h]

theorem keyStep_foldl_characterize (q : QuestionV4) (k : String)
    (players : List PlayerV4) :
    ∀ acc : Bool × List AnswerV4, acc.1 = false →
      players.foldl (keyStep q k) acc =
        (match firstClaimer q k players with
         | none => acc
         | some p =>
           (true, acc.2 ++ if passesMinScore p q then [answerOf p q] else [])) := by
  induction players with
  | nil => intro acc _; rfl
  | cons p ps ih =>
    intro acc h
    by_cases hc : (p.normalized_name == k && claimsKey p q) = true
    · have hcond : (p.normalized_name == k && claimsKey p q && !acc.1) = true := by
        rw [hc, h]
        rfl
      have hfind : firstClaimer q k (p :: ps) = some p := by
        simp only [firstClaimer, List.find?, hc]
      rw [List.foldl_cons, keyStep, if_pos hcond,
        keyStep_foldl_claimed q k ps _ rfl, hfind]
    · have hcf : (p.normalized_name == k && claimsKey p q) = false := by
        simpa using hc
      have hcond : ¬ ((p.normalized_name == k && claimsKey p q && !acc.1) = true) := by
        rw [hcf]
        simp
      have hfind : firstClaimer q k (p :: ps) = firstClaimer q k ps := by
        simp only [firstClaimer, List.find?, hcf]
      rw [List.foldl_cons, keyStep, if_neg hcond, ih acc h, hfind]

/-- C7, counterexample: the dedup key is claimed *before* the `min_score`
check.  With a 10-goal threshold and three same-key players processed in
order — A (5 goals, positive but below threshold), B (15 goals), C (20
goals) — the pair (B, C) are distinct entities with the same normalized
name, both producing qualifying scores, yet the computed Answer Set
contains *zero* answers for the key (A claimed it and was then dropped),
not exactly one; without A, B's answer is stored and C is dropped. -/
theorem C7_first_claimer_counterexample :
    runAnswers
      [⟨"pa", "J. Smith", "j smith", [[("goals", JVal.jint 5)]]⟩,
       ⟨"pb", "John Smith", "j smith", [[("goals", JVal.jint 15)]]⟩,
       ⟨"pc", "Jon Smith", "j smith", [[("goals", JVal.jint 20)]]⟩]
      [⟨"q1", "goals", [], some 10, true⟩] = [] ∧
    runAnswers
      [⟨"pb", "John Smith", "j smith", [[("goals", JVal.jint 15)]]⟩,
       ⟨"pc", "Jon Smith", "j smith", [[("goals", JVal.jint 20)]]⟩]
      [⟨"q1", "goals", [], some 10, true⟩] =
      [⟨"q1", "j smith", "John Smith", 15, true, false⟩] := by
  decide

/-- C7, amended: for every question (with distinct question ids) and every
normalized-name key, the computed Answer Set contains at most one Answer
for that (question, key); the key is claimed by the *first-processed*
player with a positive score for the question, and the Answer Set contains
exactly that player's answer if it also passes the `min_score` threshold
and no answer for the key otherwise — every later same-key player is
dropped entirely, never merged. -/
theorem C7_amended_dedup (players : List PlayerV4) (questions : List QuestionV4)
    (q : QuestionV4) (k : String) (hq : q ∈ questions)
    (hnodup : questions.Pairwise fun a b => a.id ≠ b.id) :
    ((runAnswers players questions).filter
        fun a => a.question_id == q.id && a.answer_key == k) =
      (match firstClaimer q k players with
       | none => []
       | some p => if passesMinScore p q then [answerOf p q] else []) ∧
    ((runAnswers players questions).filter
        fun a => a.question_id == q.id && a.answer_key == k).length ≤ 1 := by
  have hmain := projArr_foldl_players players questions q k hq hnodup ⟨[], []⟩
  have hinit : projArr ⟨[], []⟩ q k = (false, []) := by
    simp [projArr, seenLookup]
  rw [hinit, keyStep_foldl_characterize q k players (false, []) rfl] at hmain
  have hfilter : ((runAnswers players questions).filter
      fun a => a.question_id == q.id && a.answer_key == k) =
      (projArr (players.foldl (runPlayer questions) ⟨[], []⟩) q k).2 := rfl
  rw [hfilter, hmain]
  cases hfc : firstClaimer q k players with
  | none => exact ⟨rfl, by simp⟩
  | some p =>
    refine ⟨by simp, ?_⟩
    by_cases hp : passesMinScore p q = true
    · simp [hp]
    · simp [hp]

/-- C7 witness: the amended theorem applied to the three-player
counterexample input — the first claimer ("J. Smith", score 5) fails the
threshold, so the key gets no answer at all. -/
theorem C7_amended_dedup_witness :
    ((runAnswers
        [⟨"pa", "J. Smith", "j smith", [[("goals", JVal.jint 5)]]⟩,
         ⟨"pb", "John Smith", "j smith", [[("goals", JVal.jint 15)]]⟩,
         ⟨"pc", "Jon Smith", "j smith", [[("goals", JVal.jint 20)]]⟩]
        [⟨"q1", "goals", [], some 10, true⟩]).filter
      fun a => a.question_id == "q1" && a.answer_key == "j smith") = [] :=
  ((C7_amended_dedup
      [⟨"pa", "J. Smith", "j smith", [[("goals", JVal.jint 5)]]⟩,
       ⟨"pb", "John Smith", "j smith", [[("goals", JVal.jint 15)]]⟩,
       ⟨"pc", "Jon Smith", "j smith", [[("goals", JVal.jint 20)]]⟩]
      [⟨"q1", "goals", [], some 10, true⟩]
      ⟨"q1", "goals", [], some 10, true⟩ "j smith"
      (List.mem_singleton.mpr rfl) (by simp)).1).trans (by decide)

end Football501
